import Mathlib

/-!
Shallow embedding of `src/dataqualityreport/viz.py` (module `dataqualityreport.viz`).

Conventions of the embedding:
* A pandas `Series` is modelled by `PSeries`: either an object-dtype series of
  optional strings, or a numeric series of optional rationals; `none` stands for
  a missing value (`NaN` in pandas).  Numeric values are rationals.
* Matplotlib calls are modelled by records of the data that reaches them
  (bar heights, wedge weights, colors, alpha values); purely stylistic
  constants (figure size, start angle, edge colors, tick removal) are dropped.
* Python floats are exact rationals here, except where `NaN` semantics matter
  (the `donut` percentage), where `PyFloat` adds an explicit `nan` value whose
  comparisons are all false, as in IEEE semantics.
-/

/-- A pandas series: object dtype (strings) or numeric dtype (rationals),
with `none` for a missing entry (`NaN`). -/
inductive PSeries where
  | obj (vals : List (Option String))
  | num (vals : List (Option ℚ))
deriving DecidableEq

/-- `Series.dropna`: remove missing entries, keeping the dtype. -/
def PSeries.dropna : PSeries → PSeries
  | .obj vs => .obj (vs.filter Option.isSome)
  | .num vs => .num (vs.filter Option.isSome)

/-- `pandas.api.types.is_object_dtype`. -/
def PSeries.isObject : PSeries → Bool
  | .obj _ => true
  | .num _ => false

/-- The categories inferred by `astype("category")` on an object series:
the distinct non-missing values in sorted (lexical) order, as pandas sorts
string categories. -/
def categoriesOf (vs : List (Option String)) : List String :=
  List.insertionSort (fun a b => a < b) (vs.filterMap id).dedup

/-- `ser.astype("category").cat.codes` on an object series: each non-missing
value is replaced by the index of its category, and a missing entry becomes
the code `-1`.  The resulting series is an integer series with no missing
entries. -/
def catCodes (vs : List (Option String)) : List ℚ :=
  let cats := categoriesOf vs
  vs.map (fun v =>
    match v with
    | none => -1
    | some x => (cats.indexOf x : ℚ))

/-- The normalization applied to the primary series in `robust_hist`
(viz.py lines 88-90): `ser = ser.dropna()`, then category codes if the dtype
is object, then `pd.to_numeric` (the identity on the already numeric result). -/
def normalizeSer (s : PSeries) : List ℚ :=
  match s.dropna with
  | .obj vs => catCodes vs
  | .num vs => vs.filterMap id

/-- The normalization applied to a supplied reference series in `robust_hist`
(viz.py lines 93-96): category codes are taken first when the dtype is object
(`ref_ser = ref_ser.astype("category").cat.codes`, on the full series, so a
missing entry becomes `-1`), and only then `pd.to_numeric(ref_ser.dropna())`
runs; the `dropna` is a no-op on the integer code series. -/
def normalizeRef (s : PSeries) : List ℚ :=
  match s with
  | .obj vs => catCodes vs
  | .num vs => (vs.filter Option.isSome).filterMap id

/-- Linear-interpolation quantile of a sorted nonempty list (the default
interpolation used by pandas `quantile`): position `q * (n - 1)`,
interpolating between the neighbouring order statistics. -/
def quantileSorted (xs : List ℚ) (q : ℚ) : ℚ :=
  let n := xs.length
  let pos := q * ((n : ℚ) - 1)
  let lo := (Int.floor pos).toNat
  let frac := pos - (lo : ℚ)
  let a := xs.getD lo 0
  let b := xs.getD (min (lo + 1) (n - 1)) 0
  a + frac * (b - a)

/-- Modelled from the spec: `drop_outliers_iqr` is imported from
`dataqualityreport.data_utils`, which is not among the provided sources.
Following spec section 4.1: compute `Q1`, `Q3`, `IQR = Q3 - Q1` and retain the
rows whose value lies within `[median - k*IQR, median + k*IQR]`; an empty
input yields an empty output without error. -/
def drop_outliers_iqr (xs : List ℚ) (IQRmult : ℚ) : List ℚ :=
  match xs with
  | [] => []
  | _ =>
    let srt := List.insertionSort (fun a b => a ≤ b) xs
    let q1 := quantileSorted srt (1 / 4)
    let q3 := quantileSorted srt (3 / 4)
    let med := quantileSorted srt (1 / 2)
    let iqr := q3 - q1
    xs.filter (fun x => med - IQRmult * iqr ≤ x ∧ x ≤ med + IQRmult * iqr)

/-- `np.histogram_bin_edges(data, bins=b)` for an integer bin count `b`:
`b + 1` equally spaced edges over the data range.  As in numpy, an empty data
set uses the range `(0, 1)`, a degenerate range `(c, c)` is widened to
`(c - 1/2, c + 1/2)`, and a non-positive bin count is an error (`none`). -/
def histogram_bin_edges (xs : List ℚ) (bins : ℕ) : Option (List ℚ) :=
  if bins = 0 then none
  else
    let p : ℚ × ℚ :=
      match xs with
      | [] => (0, 1)
      | h :: t => (t.foldl min h, t.foldl max h)
    let lo := if p.1 = p.2 then p.1 - 1 / 2 else p.1
    let hi := if p.1 = p.2 then p.2 + 1 / 2 else p.2
    some ((List.range (bins + 1)).map (fun (i : ℕ) => lo + (hi - lo) * (i : ℚ) / (bins : ℚ)))

/-- The scale source of `robust_hist`: the (normalized) reference series when
one is supplied, else the normalized primary series (`if ref_ser is None:
ref_ser = ser`). -/
def scaleSource (ser : PSeries) (ref : Option PSeries) : List ℚ :=
  match ref with
  | none => normalizeSer ser
  | some r => normalizeRef r

/-- Output of `robust_hist`: the plotted (normalized, unfiltered) data, the
bin edges handed to `ser.hist`, the distinct-value count of the filtered scale
source, and the density flag. -/
structure HistOut where
  data : List ℚ
  edges : Option (List ℚ)
  nUnique : ℕ
  density : Bool
deriving DecidableEq

/-- `robust_hist(ser, ref_ser, bins, IQR_multiple, density)` (viz.py
lines 78-100): normalize the primary series; take the reference series
(normalized) or the primary itself as scale source; drop outliers from the
scale source; let `n_unique` be its distinct-value count; compute
`np.histogram_bin_edges` with `min(max(n_unique, 1), bins)` bins; plot the
primary series against those edges. -/
def robust_hist (ser : PSeries) (ref_ser : Option PSeries) (bins : ℕ)
    (IQRmult : ℚ) (density : Bool) : HistOut :=
  let s := normalizeSer ser
  let no_outliers := drop_outliers_iqr (scaleSource ser ref_ser) IQRmult
  let n_unique := no_outliers.dedup.length
  { data := s
    edges := histogram_bin_edges no_outliers (min (max n_unique 1) bins)
    nUnique := n_unique
    density := density }

/-- The chunk partition used by `missing_heatmap` (viz.py line 122):
`groupby(np.floor(np.arange(L) / (L / 15)))`.  The key of index `i` is
`⌊i / (L/15)⌋ = ⌊15 i / L⌋`, here as natural division; groups are listed in
increasing key order (the keys are nondecreasing in `i`, so first-appearance
order of `dedup` matches the sorted group order of pandas `groupby`). -/
def heatChunks (L : ℕ) : List (List ℕ) :=
  (((List.range L).map (fun i => 15 * i / L)).dedup).map
    (fun k => (List.range L).filter (fun i => 15 * i / L = k))

/-- A bar color: `"white"` or a point `cm.Reds(x)` on the red color ramp. -/
inductive BarColor where
  | white
  | reds (x : ℚ)
deriving DecidableEq

/-- Output of `missing_heatmap`: per-chunk completion ratios and the bar
heights and colors handed to `ax.bar`. -/
structure HeatOut where
  completions : List ℚ
  heights : List ℚ
  colors : List BarColor
deriving DecidableEq

/-- `missing_heatmap(ser)` (viz.py lines 120-132): chunk the series by
position, aggregate each chunk with `lambda x: x.count() * 1.0 / len(x)`
(pandas `count` counts the NON-MISSING entries), and draw one bar of height 1
per chunk, colored `"white"` when `1 - completion == 0.0` and
`cm.Reds((1 - completion + 0.1) / 1.1)` otherwise. -/
def missing_heatmap (ser : List (Option ℚ)) : HeatOut :=
  let comps := (heatChunks ser.length).map
    (fun ch => ((ch.countP (fun i => (ser.getD i none).isSome) : ℕ) : ℚ) / (ch.length : ℚ))
  { completions := comps
    heights := comps.map (fun _ => 1)
    colors := comps.map (fun comp =>
      if 1 - comp = 0 then BarColor.white
      else BarColor.reds ((1 - comp + 1 / 10) / (11 / 10))) }

/-- The per-chunk completion the claim describes: the number of entries EQUAL
TO 1 in the chunk, divided by the chunk size (stated from the claim, for
comparison with the completion `missing_heatmap` actually computes). -/
def presenceCompletions (ser : List (Option ℚ)) : List ℚ :=
  (heatChunks ser.length).map
    (fun ch => ((ch.countP (fun i => ser.getD i none = some 1) : ℕ) : ℚ) / (ch.length : ℚ))

/-- A Python float as it behaves under the comparisons in `donut`: either an
exact value or `nan`, every comparison with `nan` being false. -/
inductive PyFloat where
  | val (q : ℚ)
  | nan
deriving DecidableEq

/-- Output of `donut`: the wedge list handed to `plt.pie` (weight and color
per wedge), the `alpha` in the wedge properties (`none` when `plt.pie` is not
reached), and the center text (`none` when `plt.text` is not reached). -/
structure DonutOut where
  wedges : List (ℚ × String)
  wedgeAlpha : Option ℚ
  text : Option String
deriving DecidableEq

/-- `donut(perc, label, color, wedgewidth)` (viz.py lines 135-158).
`perc == 1.0` gives the single wedge `[perc]` in `color`; `perc == 0.0` gives
`[1.0]` in white; `0.0 < perc < 1.0` gives `[perc, 1 - perc]` in
`[color, white]`; every other `perc` - and `nan`, whose comparisons are all
false - falls through to `return ax` BEFORE `plt.pie` and `plt.text` run, so
no wedge and no center text are produced and no error is raised.  The wedge
alpha is `1.0 if perc > 0.0 else 0.5`; the center text is `label or ""`. -/
def donut (perc : PyFloat) (label : Option String) (color : String) : DonutOut :=
  match perc with
  | .nan => { wedges := [], wedgeAlpha := none, text := none }
  | .val q =>
    let alpha : ℚ := if 0 < q then 1 else 1 / 2
    if q = 1 then
      { wedges := [(q, color)], wedgeAlpha := some alpha, text := some (label.getD "") }
    else if q = 0 then
      { wedges := [(1, "white")], wedgeAlpha := some alpha, text := some (label.getD "") }
    else if 0 < q ∧ q < 1 then
      { wedges := [(q, color), (1 - q, "white")], wedgeAlpha := some alpha,
        text := some (label.getD "") }
    else
      { wedges := [], wedgeAlpha := none, text := none }

/-- The serialized image of a `sparkify` call: a bare embeddable image
string, or that string wrapped in a captioned container. -/
inductive SparkImg where
  | bare (img : String)
  | captioned (caption : String) (img : String)
deriving DecidableEq

/-- Placeholder for the base64-encoded PNG payload produced by `savefig`. -/
def imgPayload : String := "base64png"

/-- Outcome of a `sparkify` call: whether the figure was created and whether
`plt.close(fig)` ran, plus the returned string or the propagated renderer
exception. -/
structure SparkOut (E : Type) where
  figCreated : Bool
  figClosed : Bool
  result : Except E SparkImg

/-- `sparkify(plt_func, figsize, ylim, caption, ...)` (viz.py lines 55-75),
with the injected renderer abstracted to its outcome `render` (normal return
or raised exception).  The figure is created first; then the renderer runs:
if it raises, the exception propagates at that point and `plt.close(fig)` -
which only comes after `plt.savefig` near the end of the function body, with
no try/finally around the call - never runs.  On the normal path the figure
is saved, closed, and the image string (wrapped with the caption when one is
given) is returned. -/
def sparkify {E : Type} (render : Except E Unit) (caption : Option String) : SparkOut E :=
  match render with
  | .error e => { figCreated := true, figClosed := false, result := .error e }
  | .ok _ =>
    { figCreated := true
      figClosed := true
      result := .ok (match caption with
        | none => .bare imgPayload
        | some cap => .captioned cap imgPayload) }

/-- Output of `missing_bar`: the two `ax.bar` layers (viz.py lines 176-200),
each with its x positions and heights; the background layer has a single
color and alpha 0.1, the foreground layer a per-bar color and bottoms. -/
structure BarsOut where
  bgX : List ℕ
  bgHeights : List ℚ
  bgAlpha : ℚ
  fgX : List ℕ
  fgHeights : List ℚ
  fgBottoms : List ℚ
  fgColors : List BarColor
deriving DecidableEq

/-- `missing_bar(ser)` (viz.py lines 176-200): a background bar per element
of height `1 - v` at alpha 0.1, and a foreground bar per element of height
`v` stacked on top (bottom `1 - v`), colored `cm.Reds(0.7)` when `v == 1.0`
and `cm.Reds(0.1)` otherwise. -/
def missing_bar (ser : List ℚ) : BarsOut :=
  { bgX := List.range ser.length
    bgHeights := ser.map (fun v => 1 - v)
    bgAlpha := 1 / 10
    fgX := List.range ser.length
    fgHeights := ser
    fgBottoms := ser.map (fun v => 1 - v)
    fgColors := ser.map (fun v =>
      if v = 1 then BarColor.reds (7 / 10) else BarColor.reds (1 / 10)) }

/-- The metric-style suffixes of `millify`. -/
def millnames : List String := ["", "k", "M", "B", "T", "P", "E", "Z", "Y"]

/-- The magnitude tier of `millify` (viz.py line 216):
`max(0, min(len(millnames) - 1, int(math.floor(0 if n == 0 else
math.log10(abs(n)) / 3))))`.  Since `⌊log10 |n| / 3⌋ = ⌊log1000 |n|⌋` and the
clamp keeps the result in `[0, 8]`, the tier is computed here by direct
comparison of `|n|` with the powers of 1000: it is the largest `k ≤ 8` with
`1000 ^ k ≤ |n|`, and 0 when `|n| < 1000` - in particular 0 when `n = 0`,
matching the special case that avoids `log10(0)`. -/
def millidxOf (n : ℚ) : ℕ :=
  if (1000 : ℚ) ^ 8 ≤ |n| then 8
  else if (1000 : ℚ) ^ 7 ≤ |n| then 7
  else if (1000 : ℚ) ^ 6 ≤ |n| then 6
  else if (1000 : ℚ) ^ 5 ≤ |n| then 5
  else if (1000 : ℚ) ^ 4 ≤ |n| then 4
  else if (1000 : ℚ) ^ 3 ≤ |n| then 3
  else if (1000 : ℚ) ^ 2 ≤ |n| then 2
  else if (1000 : ℚ) ^ 1 ≤ |n| then 1
  else 0

/-- Round to the nearest integer, ties to even - the rounding used by
Python `"{:.Nf}".format` on an exactly represented value. -/
def roundHalfEven (q : ℚ) : ℤ :=
  let f := Int.floor q
  let r := q - (f : ℚ)
  if r < 1 / 2 then f
  else if 1 / 2 < r then f + 1
  else if f % 2 = 0 then f else f + 1

/-- Left-pad a digit string with zeros to width `w`. -/
def padZeros (s : String) (w : ℕ) : String :=
  (List.replicate (w - s.length) (Char.ofNat 48)).asString ++ s

/-- Python `"{:.{precision}f}".format(q)` on an exact rational value: round
`q * 10 ^ prec` half-to-even, then print sign, integer part and, when
`prec > 0`, a point and `prec` fractional digits.  The sign is taken from `q`
itself, so a negative value rounding to zero prints as `-0`, as in Python. -/
def formatFixed (q : ℚ) (prec : ℕ) : String :=
  let scaled := roundHalfEven (q * 10 ^ prec)
  let mag := scaled.natAbs
  let body :=
    if prec = 0 then toString mag
    else toString (mag / 10 ^ prec) ++ "." ++ padZeros (toString (mag % 10 ^ prec)) prec
  (if q < 0 then "-" else "") ++ body

/-- `millify(n, precision)` (viz.py lines 213-219): pick the magnitude tier,
divide by `10 ** (3 * millidx)`, format with the requested precision, and
append the tier suffix. -/
def millify (n : ℚ) (precision : ℕ) : String :=
  let millidx := millidxOf n
  formatFixed (n / 10 ^ (3 * millidx)) precision ++ millnames.getD millidx ""

/-- Whether an `Except` value is a normal result. -/
def exceptOk {E α : Type} : Except E α → Bool
  | .ok _ => true
  | .error _ => false

/-- The type of the render function the module attaches to `pd.Series`. -/
def SeriesMethod : Type := PSeries → Option PSeries → ℕ → ℚ → Bool → HistOut

/-- The module-level statement `pd.Series.robust_hist = robust_hist` (viz.py
line 222), executed when the module is imported, as a transformation of the
process-wide attribute table of the pandas `Series` class: whatever the table
was before, afterwards the name `"robust_hist"` is bound to this module's
`robust_hist`, and every other name is untouched.  The table is shared
process state, so the binding is visible to all code in the process from that
point on, not scoped to any render call. -/
def importSideEffect (attrs : String → Option SeriesMethod) : String → Option SeriesMethod :=
  fun attr => if attr = "robust_hist" then some robust_hist else attrs attr

set_option maxRecDepth 40000

/-- `histogram_bin_edges` with a positive bin count always succeeds and
returns one more edge than the bin count. -/
theorem histogram_bin_edges_length (xs : List ℚ) (bins : ℕ) (hb : bins ≠ 0) :
    ∃ es, histogram_bin_edges xs bins = some es ∧ es.length = bins + 1 := by
  rw [histogram_bin_edges.eq_def, if_neg hb]
  exact ⟨_, rfl, by rw [List.length_map, List.length_range]⟩

/-- C1: for every `robust_hist` call with a positive requested bin count, the
number of bins actually used (edges minus one) equals
`min(max(n_unique, 1), bins)`, where `n_unique` counts the distinct values of
the outlier-filtered scale source (the reference series when supplied, else
the primary series); in particular `n_unique = 1` gives exactly one bin, and
the edge computation succeeds (no exception). -/
theorem robust_hist_bin_count (ser : PSeries) (ref_ser : Option PSeries) (bins : ℕ)
    (IQRmult : ℚ) (density : Bool) (hb : 1 ≤ bins) :
    ∃ es, (robust_hist ser ref_ser bins IQRmult density).edges = some es ∧
      es.length - 1 =
        min (max ((drop_outliers_iqr (scaleSource ser ref_ser) IQRmult).dedup.length) 1) bins ∧
      ((drop_outliers_iqr (scaleSource ser ref_ser) IQRmult).dedup.length = 1 →
        es.length - 1 = 1) := by
  obtain ⟨es, h1, h2⟩ := histogram_bin_edges_length
    (drop_outliers_iqr (scaleSource ser ref_ser) IQRmult)
    (min (max ((drop_outliers_iqr (scaleSource ser ref_ser) IQRmult).dedup.length) 1) bins)
    (by omega)
  refine ⟨es, ?_, by omega, fun h => by omega⟩
  simpa only [robust_hist] using h1

/-- Witness for C1 at a constant numeric series with the default arguments:
the filtered scale source has one distinct value and one bin is used. -/
theorem robust_hist_bin_count_witness :
    1 ≤ 50 ∧
    (∃ es, (robust_hist (PSeries.num [some 5, some 5]) none 50 3 true).edges = some es ∧
      es.length - 1 =
        min (max ((drop_outliers_iqr
          (scaleSource (PSeries.num [some 5, some 5]) none) 3).dedup.length) 1) 50 ∧
      ((drop_outliers_iqr
          (scaleSource (PSeries.num [some 5, some 5]) none) 3).dedup.length = 1 →
        es.length - 1 = 1)) ∧
    (drop_outliers_iqr (scaleSource (PSeries.num [some 5, some 5]) none) 3).dedup.length = 1 :=
  ⟨by decide,
   robust_hist_bin_count (PSeries.num [some 5, some 5]) none 50 3 true (by decide),
   by with_unfolding_all decide⟩

/-- C2 counterexample: on the presence series `[0]` (one entry, value 0,
meaning "missing" under the claim's 0/1 encoding), `missing_heatmap` computes
completion 1 - it counts NON-NULL entries, and the value 0 is not null - and
colors the single bar white, although the completion the claim prescribes
(count of entries equal to 1, divided by chunk size) is 0 and 0 ≠ 1. -/
theorem missing_heatmap_completion_counterexample :
    (missing_heatmap [some 0]).completions = [1] ∧
    (missing_heatmap [some 0]).colors = [BarColor.white] ∧
    presenceCompletions [some 0] = [0] ∧ (1 : ℚ) ≠ 0 := by
  with_unfolding_all decide

/-- C2 (amended): `missing_heatmap` computes each chunk's completion as the
number of NON-MISSING (non-null) entries in the chunk divided by the chunk
size - not the number of entries equal to 1 - and colors a chunk's bar white
exactly when that completion is 1. -/
theorem missing_heatmap_completion (ser : List (Option ℚ)) :
    (missing_heatmap ser).completions =
      (heatChunks ser.length).map
        (fun ch => ((ch.countP (fun i => (ser.getD i none).isSome) : ℕ) : ℚ) / (ch.length : ℚ)) ∧
    (missing_heatmap ser).colors =
      (missing_heatmap ser).completions.map
        (fun comp => if comp = 1 then BarColor.white
          else BarColor.reds ((1 - comp + 1 / 10) / (11 / 10))) := by
  refine ⟨rfl, ?_⟩
  simp only [missing_heatmap]
  refine List.map_congr_left ?_
  intro comp _
  by_cases hc : comp = 1
  · rw [if_pos (by rw [hc]; ring), if_pos hc]
  · rw [if_neg (fun h => hc (by linarith [sub_eq_zero.mp h])), if_neg hc]

/-- C8: `missing_heatmap` partitions by position into contiguous chunks: for
`L = 150` there are exactly 15 chunks, chunk `k` covering the 10 consecutive
rows `10k, ..., 10k + 9`; for `L = 7` the chunking completes and the chart
has at least one bar. -/
theorem missing_heatmap_chunking :
    heatChunks 150 = (List.range 15).map (fun k => List.range' (10 * k) 10) ∧
    (∀ ser : List (Option ℚ), ser.length = 150 → (missing_heatmap ser).colors.length = 15) ∧
    (∀ ser : List (Option ℚ), ser.length = 7 → 1 ≤ (missing_heatmap ser).colors.length) := by
  refine ⟨by decide, ?_, ?_⟩ <;>
    · intro ser h
      simp only [missing_heatmap, List.length_map]
      rw [h]
      decide

/-- Witness for C8 on concrete series of lengths 150 and 7. -/
theorem missing_heatmap_chunking_witness :
    (List.replicate 150 (some (1 : ℚ))).length = 150 ∧
    (missing_heatmap (List.replicate 150 (some (1 : ℚ)))).colors.length = 15 ∧
    (List.replicate 7 (none : Option ℚ)).length = 7 ∧
    1 ≤ (missing_heatmap (List.replicate 7 (none : Option ℚ))).colors.length :=
  ⟨by decide,
   missing_heatmap_chunking.2.1 (List.replicate 150 (some 1)) (by decide),
   by decide,
   missing_heatmap_chunking.2.2 (List.replicate 7 none) (by decide)⟩

/-- C3: the exact boundary policy of `donut`.  `perc == 1.0` gives exactly one
wedge of weight 1 in the given color at full opacity; `perc == 0.0` gives
exactly one wedge of weight 1 colored white with the half-opacity (0.5) wedge
border properties; `0 < perc < 1` gives exactly the two wedges `perc` (in the
color) and `1 - perc` (white), summing to 1, fully opaque; any other `perc`,
`nan` included, reaches the early `return ax`, so no wedge is produced and no
error is raised (the embedding is total). -/
theorem donut_boundary_cases :
    (∀ l c, (donut (PyFloat.val 1) l c).wedges = [(1, c)] ∧
      (donut (PyFloat.val 1) l c).wedgeAlpha = some 1) ∧
    (∀ l c, (donut (PyFloat.val 0) l c).wedges = [(1, "white")] ∧
      (donut (PyFloat.val 0) l c).wedgeAlpha = some (1 / 2)) ∧
    (∀ (q : ℚ) l c, 0 < q → q < 1 →
      (donut (PyFloat.val q) l c).wedges = [(q, c), (1 - q, "white")] ∧
      ((donut (PyFloat.val q) l c).wedges.map Prod.fst).sum = 1 ∧
      (donut (PyFloat.val q) l c).wedgeAlpha = some 1) ∧
    (∀ (q : ℚ) l c, q < 0 ∨ 1 < q →
      (donut (PyFloat.val q) l c).wedges = [] ∧
      (donut (PyFloat.val q) l c).wedgeAlpha = none) ∧
    (∀ l c, (donut PyFloat.nan l c).wedges = [] ∧
      (donut PyFloat.nan l c).wedgeAlpha = none) := by
  refine ⟨?_, ?_, ?_, ?_, ?_⟩
  · intro l c
    constructor <;> norm_num [donut]
  · intro l c
    constructor <;> norm_num [donut]
  · intro q l c h0 h1
    have hne1 : ¬ q = 1 := ne_of_lt h1
    have hne0 : ¬ q = 0 := ne_of_gt h0
    refine ⟨?_, ?_, ?_⟩ <;>
      simp only [donut, if_neg hne1, if_neg hne0, if_pos (And.intro h0 h1), if_pos h0,
        List.map_cons, List.map_nil, List.sum_cons, List.sum_nil]
    ring
  · intro q l c h
    have hne1 : ¬ q = 1 := by
      rcases h with h | h
      · exact ne_of_lt (lt_trans h one_pos)
      · exact ne_of_gt h
    have hne0 : ¬ q = 0 := by
      rcases h with h | h
      · exact ne_of_lt h
      · exact ne_of_gt (lt_trans one_pos h)
    have hmid : ¬ (0 < q ∧ q < 1) := by
      rcases h with h | h
      · exact fun hc => absurd hc.1 (not_lt.mpr (le_of_lt h))
      · exact fun hc => absurd hc.2 (not_lt.mpr (le_of_lt h))
    constructor <;> simp only [donut, if_neg hne1, if_neg hne0, if_neg hmid]
  · intro l c
    exact ⟨rfl, rfl⟩

/-- Witness for C3 discharging the two-wedge case at `perc = 1/2` and the
out-of-range case at `perc = 3/2`. -/
theorem donut_boundary_cases_witness :
    ((0 : ℚ) < 1 / 2 ∧ (1 : ℚ) / 2 < 1 ∧
      (donut (PyFloat.val (1 / 2)) none "blue").wedges = [(1 / 2, "blue"), (1 - 1 / 2, "white")]) ∧
    (((3 : ℚ) / 2 < 0 ∨ (1 : ℚ) < 3 / 2) ∧
      (donut (PyFloat.val (3 / 2)) none "blue").wedges = []) :=
  ⟨⟨by norm_num, by norm_num,
    (donut_boundary_cases.2.2.1 (1 / 2) none "blue" (by norm_num) (by norm_num)).1⟩,
   ⟨Or.inr (by norm_num),
    (donut_boundary_cases.2.2.2.1 (3 / 2) none "blue" (Or.inr (by norm_num))).1⟩⟩

/-- C6 counterexample: for `perc = 3/2` (outside `[0, 1]`) and a supplied
label, `donut` returns at the early `return ax` BEFORE `plt.text` runs, so no
center label text is drawn - the claim says it is drawn for every `perc`. -/
theorem donut_label_counterexample :
    (donut (PyFloat.val (3 / 2)) (some "77") "blue").text = none := by
  with_unfolding_all decide

/-- C6 (amended): `donut` draws the center label text (the empty string when
no label is given) exactly when it renders at least one wedge, i.e. when
`perc` is 1, 0, or strictly between 0 and 1; for any other `perc` (including
`nan`) the early return skips the text as well. -/
theorem donut_label_drawn_iff_wedge (perc : PyFloat) (label : Option String) (c : String) :
    (donut perc label c).text =
      if (donut perc label c).wedges = [] then none else some (label.getD "") := by
  cases perc with
  | nan => rfl
  | val q =>
    simp only [donut]
    split_ifs <;> simp_all

/-- C4 counterexample: when the injected renderer raises, `sparkify` never
reaches `plt.close(fig)` (there is no try/finally around the renderer call),
so the figure it created persists - the claim says the figure is released on
every exit path. -/
theorem sparkify_no_close_on_error :
    (sparkify (Except.error () : Except Unit Unit) none).figCreated = true ∧
    (sparkify (Except.error () : Except Unit Unit) none).figClosed = false := by
  exact ⟨rfl, rfl⟩

/-- C4 (amended): `sparkify` closes the figure it creates exactly on the
normal exit path (after a successful save); when the renderer raises, the
exception propagates and the figure is NOT closed, so repeated failing
invocations do accumulate open figures. -/
theorem sparkify_close_only_on_success {E : Type} (render : Except E Unit)
    (caption : Option String) :
    (sparkify render caption).figCreated = true ∧
    (sparkify render caption).figClosed = exceptOk render ∧
    (exceptOk render = false →
      (sparkify render caption).figClosed = false ∧
      ∃ e, render = Except.error e ∧
        (sparkify render caption).result = Except.error e) := by
  cases render with
  | error e => exact ⟨rfl, rfl, fun _ => ⟨rfl, e, rfl, rfl⟩⟩
  | ok u =>
    refine ⟨rfl, rfl, fun h => ?_⟩
    simp only [exceptOk] at h
    cases h

/-- Witness for C4 at a concrete failing renderer. -/
theorem sparkify_close_only_on_success_witness :
    exceptOk (Except.error () : Except Unit Unit) = false ∧
    ((sparkify (Except.error () : Except Unit Unit) none).figClosed = false ∧
      ∃ e, (Except.error () : Except Unit Unit) = Except.error e ∧
        (sparkify (Except.error () : Except Unit Unit) none).result = Except.error e) :=
  ⟨rfl, (sparkify_close_only_on_success (Except.error ()) none).2.2 rfl⟩

/-- C5 counterexample: for the object-dtype reference series `["a", NaN]`,
the reference path of `robust_hist` produces `[0, -1]` - the missing entry is
NOT dropped first; it is turned into the category code `-1` and survives the
later `dropna` - while the primary path (drop missing first, then codes,
then coerce) produces `[0]`, so the reference does not undergo the same three
steps in the same order. -/
theorem normalize_ref_order_counterexample :
    normalizeRef (PSeries.obj [some "a", none]) = [0, -1] ∧
    normalizeSer (PSeries.obj [some "a", none]) = [0] ∧
    normalizeRef (PSeries.obj [some "a", none]) ≠
      normalizeSer (PSeries.obj [some "a", none]) := by
  refine ⟨by decide, by decide, by decide⟩

/-- In a list of category codes over a fixed category list, the code `-1`
occurs exactly as often as the missing entry `none` occurs in the input. -/
theorem count_neg_one_codes (cats : List String) (vs : List (Option String)) :
    ((vs.map (fun v =>
      match v with
      | none => (-1 : ℚ)
      | some x => (cats.indexOf x : ℚ))).count (-1)) = vs.count none := by
  induction vs with
  | nil => rfl
  | cons a t ih =>
    cases a with
    | none => simp [List.count_cons, ih]
    | some x =>
      have hx : ¬ ((cats.indexOf x : ℕ) : ℚ) = -1 := by
        have h0 : (0 : ℚ) ≤ ((cats.indexOf x : ℕ) : ℚ) := Nat.cast_nonneg _
        intro hc
        rw [hc] at h0
        norm_num at h0
      simp [List.count_cons, hx, ih]

/-- C5 (amended): the primary column is normalized by dropping missing
entries first, then coding, then coercing - its result has one entry per
non-missing input value and never contains `-1` for a missing entry - while a
supplied object-dtype reference column is coded BEFORE the drop, so its
result keeps one entry per input value, with missing entries surviving as the
code `-1` (exactly one `-1` per missing entry); the two paths coincide on
numeric references, and each series is coded from its own categories. -/
theorem normalize_pipelines (vs : List (Option String)) (qs : List (Option ℚ)) :
    (normalizeSer (PSeries.obj vs)).length = vs.countP Option.isSome ∧
    (-1 : ℚ) ∉ normalizeSer (PSeries.obj vs) ∧
    (normalizeRef (PSeries.obj vs)).length = vs.length ∧
    (normalizeRef (PSeries.obj vs)).count (-1) = vs.count none ∧
    normalizeRef (PSeries.num qs) = normalizeSer (PSeries.num qs) := by
  refine ⟨?_, ?_, ?_, ?_, rfl⟩
  · simp only [normalizeSer, PSeries.dropna, catCodes, List.length_map]
    exact (List.countP_eq_length_filter _ _).symm
  · intro hmem
    simp only [normalizeSer, PSeries.dropna, catCodes] at hmem
    rw [List.mem_map] at hmem
    obtain ⟨a, ha, hfa⟩ := hmem
    rw [List.mem_filter] at ha
    cases a with
    | none => simp at ha
    | some x =>
      dsimp only at hfa
      have h0 : (0 : ℚ) ≤ ((categoriesOf (vs.filter Option.isSome)).indexOf x : ℕ) :=
        Nat.cast_nonneg _
      rw [hfa] at h0
      norm_num at h0
  · simp [normalizeRef, catCodes]
  · simp only [normalizeRef, catCodes]
    exact count_neg_one_codes (categoriesOf vs) vs

/-- C7 counterexample: on the presence series `[0, 1]` (position 0 fully
missing, position 1 fully present under the claim's encoding), the
foreground bar of `missing_bar` is LOW-saturation red at the fully-missing
position and FULL-saturation red at the fully-present one - the opposite of
the claim, which demands full saturation exactly at fully-missing positions. -/
theorem missing_bar_color_counterexample :
    (missing_bar [0, 1]).fgColors = [BarColor.reds (1 / 10), BarColor.reds (7 / 10)] ∧
    BarColor.reds (1 / 10) ≠ BarColor.reds (7 / 10) := by
  with_unfolding_all decide

/-- C7 (amended): `missing_bar` renders exactly one bar pair per element: a
background bar at alpha 0.1 of height `1 - v`, and a foreground bar of height
`v` stacked on top of it, colored full-saturation red (`Reds(0.7)`) exactly
at positions whose value `v` equals 1.0 and low-saturation red (`Reds(0.1)`)
otherwise.  (Per the function docstring, the series value is the missingness
of a partition, so `v == 1.0` marks a fully-missing partition.) -/
theorem missing_bar_layers (ser : List ℚ) (i : ℕ) :
    (missing_bar ser).bgX = List.range ser.length ∧
    (missing_bar ser).fgX = List.range ser.length ∧
    (missing_bar ser).bgAlpha = 1 / 10 ∧
    (missing_bar ser).bgHeights[i]? = (ser[i]?).map (fun v => 1 - v) ∧
    (missing_bar ser).fgHeights[i]? = ser[i]? ∧
    (missing_bar ser).fgBottoms[i]? = (ser[i]?).map (fun v => 1 - v) ∧
    (∀ v : ℚ, ser[i]? = some v →
      ((missing_bar ser).fgColors[i]? = some (BarColor.reds (7 / 10)) ↔ v = 1) ∧
      ((missing_bar ser).fgColors[i]? = some (BarColor.reds (1 / 10)) ↔ ¬ v = 1)) := by
  refine ⟨rfl, rfl, rfl, ?_, rfl, ?_, ?_⟩
  · simp [missing_bar, List.getElem?_map]
  · simp [missing_bar, List.getElem?_map]
  · intro v hv
    have hcol : (missing_bar ser).fgColors[i]? =
        some (if v = 1 then BarColor.reds (7 / 10) else BarColor.reds (1 / 10)) := by
      simp [missing_bar, List.getElem?_map, hv]
    by_cases h : v = 1
    · rw [hcol, if_pos h]
      constructor
      · exact ⟨fun _ => h, fun _ => rfl⟩
      · constructor
        · intro hc
          simp only [Option.some.injEq, BarColor.reds.injEq] at hc
          norm_num at hc
        · exact fun hc => absurd h hc
    · rw [hcol, if_neg h]
      constructor
      · constructor
        · intro hc
          simp only [Option.some.injEq, BarColor.reds.injEq] at hc
          norm_num at hc
        · exact fun hc => absurd hc h
      · exact ⟨fun _ => h, fun _ => rfl⟩

/-- Witness for C7 at the series `[0, 1]`, position 1. -/
theorem missing_bar_layers_witness :
    ([0, 1] : List ℚ)[1]? = some 1 ∧
    (((missing_bar [0, 1]).fgColors[1]? = some (BarColor.reds (7 / 10)) ↔ (1 : ℚ) = 1) ∧
      ((missing_bar [0, 1]).fgColors[1]? = some (BarColor.reds (1 / 10)) ↔ ¬ (1 : ℚ) = 1)) :=
  ⟨rfl, (missing_bar_layers [0, 1] 1).2.2.2.2.2.2 1 rfl⟩

/-- A negative argument makes `formatFixed` print a leading minus sign. -/
theorem formatFixed_neg (q : ℚ) (p : ℕ) (hq : q < 0) :
    ∃ s, formatFixed q p = "-" ++ s := by
  simp only [formatFixed]
  rw [if_pos hq]
  exact ⟨_, rfl⟩

/-- C9: `millify` picks the magnitude tier `max(0, min(8, ⌊log10|n|/3⌋))`
(characterized order-theoretically: for `|n| ≥ 1` the tier `t` satisfies
`1000^t ≤ |n|`, and `|n| < 1000^(t+1)` unless clamped at 8; for `|n| < 1`,
`n = 0` included, the tier is 0; the tier never exceeds 8), divides by
`1000^tier`, formats with the requested precision and appends the suffix,
preserving the sign of negative numbers; and the five quoted examples hold. -/
theorem millify_humanizer :
    millify 0 0 = "0" ∧ millify 999 0 = "999" ∧ millify 1000 0 = "1k" ∧
    millify 1500000 1 = "1.5M" ∧ millify (-2000) 0 = "-2k" ∧
    (∀ n : ℚ, 1 ≤ |n| →
      (1000 : ℚ) ^ millidxOf n ≤ |n| ∧
      (millidxOf n < 8 → |n| < 1000 ^ (millidxOf n + 1))) ∧
    (∀ n : ℚ, |n| < 1 → millidxOf n = 0) ∧
    (∀ n : ℚ, millidxOf n ≤ 8) ∧
    (∀ (n : ℚ) (p : ℕ), n < 0 → ∃ s, millify n p = "-" ++ s) := by
  refine ⟨by with_unfolding_all decide, by with_unfolding_all decide,
    by with_unfolding_all decide, by with_unfolding_all decide,
    by with_unfolding_all decide, ?_, ?_, ?_, ?_⟩
  · intro n hn
    simp only [millidxOf]
    split_ifs with h8 h7 h6 h5 h4 h3 h2 h1
    · exact ⟨h8, fun hlt => absurd hlt (lt_irrefl 8)⟩
    · exact ⟨h7, fun _ => not_le.mp h8⟩
    · exact ⟨h6, fun _ => not_le.mp h7⟩
    · exact ⟨h5, fun _ => not_le.mp h6⟩
    · exact ⟨h4, fun _ => not_le.mp h5⟩
    · exact ⟨h3, fun _ => not_le.mp h4⟩
    · exact ⟨h2, fun _ => not_le.mp h3⟩
    · exact ⟨h1, fun _ => not_le.mp h2⟩
    · exact ⟨by simpa using hn, fun _ => by simpa using not_le.mp h1⟩
  · intro n hn
    simp only [millidxOf]
    split_ifs with h8 h7 h6 h5 h4 h3 h2 h1
    · exact absurd h8 (not_le.mpr (lt_of_lt_of_le hn (by norm_num)))
    · exact absurd h7 (not_le.mpr (lt_of_lt_of_le hn (by norm_num)))
    · exact absurd h6 (not_le.mpr (lt_of_lt_of_le hn (by norm_num)))
    · exact absurd h5 (not_le.mpr (lt_of_lt_of_le hn (by norm_num)))
    · exact absurd h4 (not_le.mpr (lt_of_lt_of_le hn (by norm_num)))
    · exact absurd h3 (not_le.mpr (lt_of_lt_of_le hn (by norm_num)))
    · exact absurd h2 (not_le.mpr (lt_of_lt_of_le hn (by norm_num)))
    · exact absurd h1 (not_le.mpr (lt_of_lt_of_le hn (by norm_num)))
    · rfl
  · intro n
    simp only [millidxOf]
    split_ifs <;> norm_num
  · intro n p hn
    have hq : n / 10 ^ (3 * millidxOf n) < 0 :=
      div_neg_of_neg_of_pos hn (by positivity)
    obtain ⟨s, hs⟩ := formatFixed_neg (n / 10 ^ (3 * millidxOf n)) p hq
    refine ⟨s ++ millnames.getD (millidxOf n) "", ?_⟩
    simp only [millify]
    rw [hs, String.append_assoc]

/-- Witness for C9: tier lower bound at `n = 5000` and sign preservation at
`n = -3`. -/
theorem millify_humanizer_witness :
    (1 : ℚ) ≤ |(5000 : ℚ)| ∧ (1000 : ℚ) ^ millidxOf 5000 ≤ |(5000 : ℚ)| ∧
    ((-3 : ℚ) < 0 ∧ ∃ s, millify (-3) 0 = "-" ++ s) := by
  have h1 : (1 : ℚ) ≤ |(5000 : ℚ)| := by norm_num
  have h2 : (-3 : ℚ) < 0 := by norm_num
  exact ⟨h1, (millify_humanizer.2.2.2.2.2.1 5000 h1).1, h2,
    millify_humanizer.2.2.2.2.2.2.2.2 (-3) 0 h2⟩

/-- C10: the module-level assignment rebinds the name `"robust_hist"` in the
process-wide `pd.Series` attribute table to this module's `robust_hist`,
whatever the table held before - a mutation of shared state visible to all
code in the process, and a genuine change whenever the attribute was not
previously bound to it - while leaving every other attribute untouched. -/
theorem import_patches_pd_series (attrs : String → Option SeriesMethod) (attr : String) :
    importSideEffect attrs "robust_hist" = some robust_hist ∧
    (attr ≠ "robust_hist" → importSideEffect attrs attr = attrs attr) ∧
    importSideEffect (fun _ => none) "robust_hist" ≠
      (fun _ => (none : Option SeriesMethod)) "robust_hist" := by
  refine ⟨rfl, fun h => ?_, by simp [importSideEffect]⟩
  simp only [importSideEffect, if_neg h]

/-- Witness for C10: an unrelated attribute name is untouched. -/
theorem import_patches_pd_series_witness :
    "donut_attr" ≠ "robust_hist" ∧
    importSideEffect (fun _ => none) "donut_attr" = none :=
  ⟨by decide, (import_patches_pd_series (fun _ => none) "donut_attr").2.1 (by decide)⟩
